import Mathlib

/-!
Verification of the `everlasting` BitTorrent client against its specification.

Byte buffers are modelled as `List Nat` (each element a byte value `< 256`
where the source works with `u8`).  Machine integers are modelled as `Nat`
or `Int` with explicit truncation modulo `2 ^ width` where the source casts.
Rust functions that can abort (failed `assert!`, out-of-bounds indexing,
failed `unwrap`) are modelled with `Option` or with a dedicated outcome type
that has an explicit constructor for the aborting branches.
-/

namespace Everlasting

/-- Big-endian byte list of width `w` for a natural number, truncating
modulo `256 ^ w` exactly as a Rust `as uN` cast followed by `to_be_bytes`. -/
def natToBe : Nat → Nat → List Nat
  | 0, _ => []
  | w + 1, n => natToBe w (n / 256) ++ [n % 256]

/-- Big-endian interpretation of a byte list, as in `uN::from_be_bytes`. -/
def beToNat (l : List Nat) : Nat :=
  l.foldl (fun a b => a * 256 + b) 0

/-- Big-endian bytes of a signed value (`iN::to_be_bytes`), via the
twos-complement residue modulo `2 ^ (8 * w)`. -/
def intToBe (w : Nat) (n : Int) : List Nat :=
  natToBe w (n % ((2 : Int) ^ (8 * w))).toNat

/-! ## Peer wire protocol messages (`src/peer.rs`) -/

/-- Rust `Handshake` from `src/peer.rs` (fields as in the source; byte arrays as
lists). -/
structure Handshake where
  pstr : Option (List Nat)
  reserved : List Nat
  hash : List Nat
  peerId : List Nat
  payload : Option (List Nat)
  deriving DecidableEq, Repr

/-- Rust `Message` from `src/peer.rs`.  `usize` fields become `Nat`.  The `Have`
constructor is renamed `havePiece` because `have` is a Lean keyword. -/
inductive Message where
  | handshake (hs : Handshake)
  | choke
  | unchoke
  | interested
  | uninterested
  | havePiece (idx : Nat)
  | bitfield (v : List Nat)
  | request (index begin_ length : Nat)
  | piece (index begin_ : Nat) (block : List Nat)
  | cancel (index begin_ length : Nat)
  | port (p : Nat)
  | extended
  deriving DecidableEq, Repr

/-- The protocol string `"BitTorrent protocol"` as bytes (19 of them). -/
def pstrBytes : List Nat :=
  [66, 105, 116, 84, 111, 114, 114, 101, 110, 116, 32,
   112, 114, 111, 116, 111, 99, 111, 108]

/-- Rust `Handshake::to_request` (`src/peer.rs`).  The source unwraps `pstr`;
a missing `pstr` aborts, modelled as `none`. -/
def Handshake.toRequest (h : Handshake) : Option (List Nat) :=
  match h.pstr with
  | none => none
  | some p => some ([p.length] ++ p ++ h.reserved ++ h.hash ++ h.peerId)

/-- Rust `impl Request for Message`, `to_request` (`src/peer.rs`).  The
`Extended` arm is `todo!()` in the source and a `handshake` without a
protocol string aborts; both are modelled as `none`. -/
def Message.toRequest : Message → Option (List Nat)
  | .handshake hs => hs.toRequest
  | .choke => some [0, 0, 0, 1, 0]
  | .unchoke => some [0, 0, 0, 1, 1]
  | .interested => some [0, 0, 0, 1, 2]
  | .uninterested => some [0, 0, 0, 1, 3]
  | .havePiece x => some ([0, 0, 0, 5, 4] ++ natToBe 4 x)
  | .bitfield v => some (natToBe 4 (v.length + 1) ++ [5] ++ v)
  | .request i b l =>
      some (natToBe 4 13 ++ [6] ++ natToBe 4 i ++ natToBe 4 b ++ natToBe 4 l)
  | .piece i b blk =>
      some (natToBe 4 (9 + blk.length) ++ [7] ++ natToBe 4 i ++ natToBe 4 b ++ blk)
  | .cancel i b l =>
      some (natToBe 4 13 ++ [8] ++ natToBe 4 i ++ natToBe 4 b ++ natToBe 4 l)
  | .port i => some (natToBe 4 3 ++ [9] ++ natToBe 2 i)
  | .extended => none

/-- Outcome of `Message::parse`: a parsed frame together with the number of
bytes the frame reader consumes for it, an incomplete-input indication
(`ParseError::Incomplete`), or a process abort (`panic!`, out-of-bounds
indexing, failed `try_into().unwrap()`). -/
inductive PResult where
  | ok (m : Message) (consumed : Nat)
  | incomplete
  | panic
  deriving DecidableEq, Repr

/-- Rust `impl ParseCheck for Message`, `parse` (`src/peer.rs`): reads a 4-byte
big-endian length prefix `n`, then `n` payload bytes, then dispatches on the
first payload byte. -/
def Message.parse (v : List Nat) : PResult :=
  if v.length < 4 then .incomplete
  else
    let n := beToNat (v.take 4)
    let rem := (v.drop 4).take n
    if rem.length < n then .incomplete
    else
      match rem with
      | [] => .panic
      | id :: _ =>
        if id = 0 then .ok .choke (4 + n)
        else if id = 1 then .ok .unchoke (4 + n)
        else if id = 2 then .ok .interested (4 + n)
        else if id = 3 then .ok .uninterested (4 + n)
        else if id = 4 then
          if rem.length = 5 then .ok (.havePiece (beToNat (rem.drop 1))) (4 + n)
          else .panic
        else if id = 5 then
          .ok (.bitfield (rem.flatMap fun b =>
            (List.range 8).map fun i => (b >>> i) &&& 1)) (4 + n)
        else if id = 6 then
          if 13 ≤ rem.length then
            .ok (.request (beToNat ((rem.drop 1).take 4))
                  (beToNat ((rem.drop 5).take 4))
                  (beToNat ((rem.drop 9).take 4))) (4 + n)
          else .panic
        else if id = 7 then
          if 9 ≤ rem.length then
            .ok (.piece (beToNat ((rem.drop 1).take 4))
                  (beToNat ((rem.drop 5).take 4)) rem) (4 + n)
          else .panic
        else if id = 8 then
          if 13 ≤ rem.length then
            .ok (.cancel (beToNat ((rem.drop 1).take 4))
                  (beToNat ((rem.drop 5).take 4))
                  (beToNat ((rem.drop 9).take 4))) (4 + n)
          else .panic
        else if id = 9 then
          if 3 ≤ rem.length then .ok (.port (beToNat ((rem.drop 1).take 2))) (4 + n)
          else .panic
        else if id = 20 then .ok .extended (4 + n)
        else .panic

/-! ## Handshake construction (`Handshake::new`, `src/peer.rs` and `src/pwp.rs`) -/

/-- Rust `Handshake::new`: zero reserved bytes, then `reserved[7] |= 0x01` (DHT)
and `reserved[5] &= 0x20` (the source uses a bitwise AND here).  The peer id
constant `PEER_ID` is not defined under `src/`, so it is a parameter. -/
def Handshake.new (peerId hash : List Nat) : Handshake :=
  let r0 := List.replicate 8 0
  let r1 := r0.set 7 ((r0.getD 7 0) ||| 0x01)
  let r2 := r1.set 5 ((r1.getD 5 0) &&& 0x20)
  { pstr := some pstrBytes
    reserved := r2
    hash := hash
    peerId := peerId
    payload := none }

/-! ## Connection state machine (`src/peer.rs`) -/

/-- Rust `State` from `src/peer.rs` (per-connection choke/interest flags and the
remote bitfield). -/
structure PState where
  choked : Bool
  interested : Bool
  peerChoked : Bool
  peerInterested : Bool
  remoteBitfield : List Nat
  deriving DecidableEq, Repr

/-- Rust `State::new` (`src/peer.rs`): bitfield of `pieces / 8 + 1` zero bytes. -/
def PState.new (pieces : Nat) : PState :=
  { choked := true
    interested := false
    peerChoked := true
    peerInterested := false
    remoteBitfield := List.replicate (pieces / 8 + 1) 0 }

/-- The fields of `Connection` that `Connection::handle` mutates. -/
structure ConnState where
  state : PState
  dhtPort : Option Nat
  deriving DecidableEq, Repr

/-- Rust `Connection::handle`, one received message (`src/peer.rs`).  The
`Request`/`Piece`/`Cancel` and catch-all arms are `todo!()` in the source,
and an out-of-range bitfield index aborts; both are modelled as `none`.
The `Have` arm follows the source exactly: it ORs byte `idx / 8` of the
remote bitfield with the value `idx % 8` (no bit shift appears there). -/
def Connection.handle (c : ConnState) (m : Message) : Option ConnState :=
  match m with
  | .choke => some { c with state := { c.state with choked := true } }
  | .unchoke => some { c with state := { c.state with choked := false } }
  | .interested => some { c with state := { c.state with interested := true } }
  | .uninterested => some { c with state := { c.state with interested := false } }
  | .havePiece idx =>
      match c.state.remoteBitfield[idx / 8]? with
      | none => none
      | some n =>
          some { c with state :=
            { c.state with
              remoteBitfield := c.state.remoteBitfield.set (idx / 8) (n ||| idx % 8) } }
  | .bitfield v => some { c with state := { c.state with remoteBitfield := v } }
  | .port n => some { c with dhtPort := some n }
  | _ => none

/-- Rust `impl ParseCheck for Handshake`, `parse` (`src/peer.rs`): 68 bytes are
required; `reserved`, `hash` and `peer_id` are sliced out of them and the
frame reader consumes exactly 68 bytes. -/
def Handshake.parse (v : List Nat) : Option (Handshake × Nat) :=
  if v.length < 68 then none
  else
    let rem := v.take 68
    some ({ pstr := none
            reserved := (rem.drop 20).take 8
            hash := (rem.drop 28).take 20
            peerId := (rem.drop 48).take 20
            payload := some (rem.drop 68) }, 68)

/-- The message loop of `Connection::listen` over a fully received byte
stream: parse frames one after the other and collect every frame that is
forwarded over the channel.  A trailing partial frame is a broken-pipe
error and a parse abort ends the process; both are modelled as `none`. -/
def collectFrames : Nat → List Nat → Option (List Message)
  | 0, _ => none
  | fuel + 1, v =>
      if v = [] then some []
      else
        match Message.parse v with
        | .ok m c =>
            match collectFrames fuel (v.drop c) with
            | some ms => some (m :: ms)
            | none => none
        | _ => none

/-- Rust `Connection::listen` (`src/peer.rs`) over a fully received byte stream:
read one handshake frame, then forward every subsequent message frame.
The source never compares the received `hash` against the torrent hash.
Streams that end before a complete handshake are not modelled (`none`);
the per-peer log file written by the source is omitted. -/
def Connection.listen (input : List Nat) : Option (Handshake × List Message) :=
  match Handshake.parse input with
  | some (hs, c) =>
      match collectFrames input.length (input.drop c) with
      | some ms => some (hs, ms)
      | none => none
  | none => none

/-! ## UDP tracker announce request (`src/udp.rs`) -/

/-- Rust `TransferEvent` from `src/udp.rs`; discriminants 0, 1, 2, 3. -/
inductive TransferEvent where
  | inactive
  | completed
  | started
  | stopped
  deriving DecidableEq, Repr

/-- Numeric value of a `TransferEvent` (its `repr` discriminant). -/
def TransferEvent.val : TransferEvent → Int
  | .inactive => 0
  | .completed => 1
  | .started => 2
  | .stopped => 3

/-- The `Request::Announce` variant of `src/udp.rs`.  The `socket` field is
reduced to the port it carries (the address part is never serialized). -/
structure AnnounceReq where
  cid : Int
  action : Int
  tid : Int
  hash : List Nat
  peerId : List Nat
  downloaded : Int
  left : Int
  uploaded : Int
  event : TransferEvent
  socketPort : Nat
  key : Nat
  numWant : Int
  extensions : Nat
  deriving DecidableEq, Repr

/-- Rust `Request::to_request` for the `Announce` variant (`src/udp.rs`).  The
source writes literal `[0, 0, 0, 0]` for the event and ip fields and the
literal `1317u16` for the final two bytes. -/
def AnnounceReq.toRequest (r : AnnounceReq) : List Nat :=
  intToBe 8 r.cid ++ intToBe 4 r.action ++ intToBe 4 r.tid ++
  r.hash ++ r.peerId ++
  intToBe 8 r.downloaded ++ intToBe 8 r.left ++ intToBe 8 r.uploaded ++
  [0, 0, 0, 0] ++ [0, 0, 0, 0] ++
  natToBe 4 r.key ++ intToBe 4 r.numWant ++ natToBe 2 1317

/-! ## Block buffer (`src/writer.rs`) -/

/-- Rust `Buffer` from `src/writer.rs`. -/
structure Buffer where
  inner : List (List Nat)
  pieces : Nat
  pieceLen : Nat
  deriving DecidableEq, Repr

/-- Rust `Buffer::new` (`src/writer.rs`): `pieces` zero-filled pieces of
`piece_len` bytes each. -/
def Buffer.new (pieceLen pieces : Nat) : Buffer :=
  { inner := List.replicate pieces (List.replicate pieceLen 0)
    pieces := pieces
    pieceLen := pieceLen }

/-- Outcome of `Buffer::write`: each aborting statement of the source gets
a constructor, in the order the statements run. -/
inductive WriteResult where
  | assertIndexFail
  | lookupFail
  | assertBeginFail
  | sliceFail
  | ok (b : Buffer)
  deriving DecidableEq, Repr

/-- Rust `Buffer::write` (`src/writer.rs`): `assert!(index >= self.pieces)`,
then `self.inner.get_mut(index).unwrap()`, then
`assert!(begin >= self.piece_len - begin)`, then the block copy. -/
def Buffer.write (b : Buffer) (index begin_ : Nat) (block : List Nat) : WriteResult :=
  if ¬ b.pieces ≤ index then .assertIndexFail
  else
    match b.inner[index]? with
    | none => .lookupFail
    | some piece =>
        if ¬ (b.pieceLen - begin_) ≤ begin_ then .assertBeginFail
        else if begin_ + block.length ≤ piece.length then
          .ok { b with inner := (b.inner.set index
            ((piece.take begin_) ++ block ++ (piece.drop (begin_ + block.length)))) }
        else .sliceFail

/-! ## Magnet URI parsing (`src/magnet.rs` and `src/helpers.rs`) -/

/-- Rust `MagnetInfo` from `src/magnet.rs` (strings as byte lists; discovered
peer endpoints are kept as the raw parameter bytes). -/
structure MagnetInfo where
  hash : List Nat
  name : Option (List Nat)
  trackers : Option (List (List Nat))
  peers : Option (List (List Nat))
  deriving DecidableEq, Repr

/-- Rust `MagnetInfo::default`: a zero hash and empty optional fields. -/
def MagnetInfo.default : MagnetInfo :=
  { hash := List.replicate 20 0, name := none, trackers := none, peers := none }

/-- Value of a hexadecimal digit byte, if it is one. -/
def hexDigit? (c : Nat) : Option Nat :=
  if 48 ≤ c ∧ c ≤ 57 then some (c - 48)
  else if 97 ≤ c ∧ c ≤ 102 then some (c - 87)
  else if 65 ≤ c ∧ c ≤ 70 then some (c - 55)
  else none

/-- Chunks of two as in `v.chunks(2)` over the hash characters. -/
def chunks2 : List Nat → List (List Nat)
  | [] => []
  | [a] => [[a]]
  | a :: b :: cs => [a, b] :: chunks2 cs

/-- One chunk through `u8::from_str_radix(_, 16)` (a lone trailing digit is
accepted, as in the source). -/
def hexByte? : List Nat → Option Nat
  | [a, b] =>
      match hexDigit? a, hexDigit? b with
      | some x, some y => some (x * 16 + y)
      | _, _ => none
  | [a] => hexDigit? a
  | _ => none

/-- Rust `helpers::decode` (`src/helpers.rs`): split the string into two-digit
chunks, parse each as hex, and require exactly 20 resulting bytes (the
`try_into().unwrap()`); any failing chunk aborts, modelled as `none`. -/
def hexDecode (s : List Nat) : Option (List Nat) :=
  match (chunks2 s).mapM hexByte? with
  | some v => if v.length = 20 then some v else none
  | none => none

/-- Split at the first `=` byte, as `form_urlencoded` does for one pair. -/
def splitEqAux : List Nat → List Nat → (List Nat × List Nat)
  | [], acc => (acc.reverse, [])
  | c :: cs, acc => if c = 61 then (acc.reverse, cs) else splitEqAux cs (c :: acc)

/-- Percent-decoding with `+` as space, as `form_urlencoded` applies to
each key and value; a malformed escape is kept verbatim. -/
def pctDecode : List Nat → List Nat
  | [] => []
  | 43 :: cs => 32 :: pctDecode cs
  | 37 :: a :: b :: cs =>
      match hexDigit? a, hexDigit? b with
      | some x, some y => (x * 16 + y) :: pctDecode cs
      | _, _ => 37 :: pctDecode (a :: b :: cs)
  | c :: cs => c :: pctDecode cs

/-- Rust `Url::query_pairs` on a query string: split on `&`, drop empty pieces,
split each piece at the first `=`, percent-decode both sides. -/
def queryPairs (q : List Nat) : List (List Nat × List Nat) :=
  ((q.splitOn 38).filter (· ≠ [])).map fun p =>
    let kv := splitEqAux p []
    (pctDecode kv.1, pctDecode kv.2)

/-- Key constant "xt". -/
def strXt : List Nat := [120, 116]

/-- Key constant "tr". -/
def strTr : List Nat := [116, 114]

/-- Key constant "dn". -/
def strDn : List Nat := [100, 110]

/-- Key constant "x.pe". -/
def strXpe : List Nat := [120, 46, 112, 101]

/-- Scheme constant "btih". -/
def strBtih : List Nat := [98, 116, 105, 104]

/-- Scheme constant "btmh". -/
def strBtmh : List Nat := [98, 116, 109, 104]

/-- One iteration of the query-pair loop of `impl TryFrom<Url> for
MagnetInfo` (`src/magnet.rs`).  The `btmh` arm is `todo!()`, an unrecognised
`xt` scheme is an error, and the `x.pe` arm resolves a socket address over
DNS, which has no pure model; all three are `none`.  Unknown keys fall to
the catch-all arm, which changes nothing. -/
def magnetStep (info : MagnetInfo) (kv : List Nat × List Nat) : Option MagnetInfo :=
  if kv.1 = strXt then
    let split := kv.2.splitOn 58
    match split[1]? with
    | none => none
    | some t =>
        if t = strBtih then
          match split[2]? with
          | none => none
          | some h =>
              match hexDecode h with
              | some hh => some { info with hash := hh }
              | none => none
        else none
  else if kv.1 = strTr then
    some { info with trackers := some ((info.trackers.getD []) ++ [kv.2]) }
  else if kv.1 = strDn then some { info with name := some kv.2 }
  else if kv.1 = strXpe then none
  else some info

/-- Rust `impl TryFrom<Url> for MagnetInfo` (`src/magnet.rs`), applied to the
query pairs of the URI. -/
def magnetTryFrom (q : List Nat) : Option MagnetInfo :=
  (queryPairs q).foldlM magnetStep MagnetInfo.default

/-! ## Bencode decoding (`src/bencode.rs`, with the `bendy` byte-level
format).  The parser is fuel-indexed so that every definition computes by
kernel reduction; the fuel `2 * length + 2` always suffices because at
least one byte is consumed per two recursion levels. -/

/-- A bencode value: integer, byte string, list, or dictionary. -/
inductive Bval where
  | int (v : Int)
  | str (s : List Nat)
  | list (xs : List Bval)
  | dict (xs : List (List Nat × Bval))

/-- Whether a bencode value is a dictionary. -/
def Bval.isDict : Bval → Bool
  | .dict _ => true
  | _ => false

/-- Greedy run of decimal digit bytes: accumulated value and digit count. -/
def takeDigits (acc cnt : Nat) : List Nat → Nat × Nat
  | [] => (acc, cnt)
  | c :: cs =>
      if 48 ≤ c ∧ c ≤ 57 then takeDigits (acc * 10 + (c - 48)) (cnt + 1) cs
      else (acc, cnt)

/-- Which production the bencode parser is working on. -/
inductive PMode where
  | one
  | items
  | pairs

/-- Result of one bencode parsing step, always carrying the number of
input bytes consumed. -/
inductive BRes where
  | rone (v : Bval) (c : Nat)
  | ritems (xs : List Bval) (c : Nat)
  | rpairs (xs : List (List Nat × Bval)) (c : Nat)

/-- The bencode parser: one value, a list body, or a dictionary body
(`i<digits>e`, `<len>:<bytes>`, `l...e`, `d...e`).  Dictionary keys must be
byte strings.  Canonicality checks (sorted keys, no leading zeros) that
`bendy` may additionally perform are not modelled; theorems only ever
assume that decoding succeeded. -/
def parseBA : Nat → PMode → List Nat → Option BRes
  | 0, _, _ => none
  | fuel + 1, .one, v =>
      match v with
      | [] => none
      | c :: cs =>
          if c = 105 then
            match cs with
            | 45 :: ds =>
                let nk := takeDigits 0 0 ds
                if nk.2 = 0 then none
                else
                  match ds.drop nk.2 with
                  | 101 :: _ => some (.rone (.int (-(nk.1 : Int))) (nk.2 + 3))
                  | _ => none
            | ds =>
                let nk := takeDigits 0 0 ds
                if nk.2 = 0 then none
                else
                  match ds.drop nk.2 with
                  | 101 :: _ => some (.rone (.int (nk.1 : Int)) (nk.2 + 2))
                  | _ => none
          else if 48 ≤ c ∧ c ≤ 57 then
            let nk := takeDigits 0 0 v
            match v.drop nk.2 with
            | 58 :: rest =>
                if nk.1 ≤ rest.length then
                  some (.rone (.str (rest.take nk.1)) (nk.2 + 1 + nk.1))
                else none
            | _ => none
          else if c = 108 then
            match parseBA fuel .items cs with
            | some (.ritems xs c2) => some (.rone (.list xs) (1 + c2))
            | _ => none
          else if c = 100 then
            match parseBA fuel .pairs cs with
            | some (.rpairs xs c2) => some (.rone (.dict xs) (1 + c2))
            | _ => none
          else none
  | fuel + 1, .items, v =>
      match v with
      | [] => none
      | 101 :: _ => some (.ritems [] 1)
      | _ =>
          match parseBA fuel .one v with
          | some (.rone x c1) =>
              match parseBA fuel .items (v.drop c1) with
              | some (.ritems xs c2) => some (.ritems (x :: xs) (c1 + c2))
              | _ => none
          | _ => none
  | fuel + 1, .pairs, v =>
      match v with
      | [] => none
      | 101 :: _ => some (.rpairs [] 1)
      | _ =>
          match parseBA fuel .one v with
          | some (.rone (.str k) c1) =>
              match parseBA fuel .one (v.drop c1) with
              | some (.rone x c2) =>
                  match parseBA fuel .pairs (v.drop (c1 + c2)) with
                  | some (.rpairs xs c3) => some (.rpairs ((k, x) :: xs) (c1 + c2 + c3))
                  | _ => none
              | _ => none
          | _ => none

/-- Parse one bencode value with sufficient fuel, returning it and the
number of bytes consumed. -/
def parseB (v : List Nat) : Option (Bval × Nat) :=
  match parseBA (2 * v.length + 2) .one v with
  | some (.rone x c) => some (x, c)
  | _ => none

/-- Rust `slice::chunks(k)` (fuel-indexed; `chunks(0)` aborts in Rust and
is handled by the callers below). -/
def chunksA : Nat → Nat → List Nat → List (List Nat)
  | 0, _, _ => []
  | fuel + 1, k, v =>
      if k = 0 ∨ v = [] then [] else v.take k :: chunksA fuel k (v.drop k)

/-- Rust `v.chunks k` with fuel `v.length`, which suffices for `k > 0`. -/
def chunksList (k : Nat) (v : List Nat) : List (List Nat) :=
  chunksA v.length k v

/-- The `pieces` computation of `impl FromBencode for TorrentInfo` and of
the `Multi` arm of `impl FromBencode for Info` (`src/bencode.rs`):
`pieces.chunks(pieces.len() / SHA1_LEN).map(|x| range_to_array(&x[0..=20]))`.
`chunks(0)` aborts, and so does slicing `x[0..=20]` on a chunk shorter
than 21 bytes; both are `none`.  `range_to_array::<20>` reads the first
20 bytes of the 21-byte slice. -/
def piecesMulti (p : List Nat) : Option (List (List Nat)) :=
  let k := p.length / 20
  if k = 0 then none
  else
    let cs := chunksList k p
    if cs.all (fun x => 21 ≤ x.length) then some (cs.map (fun x => x.take 20))
    else none

/-- The `pieces` computation of the `Single` arm of `impl FromBencode for
Info` (`src/bencode.rs`): `pieces.chunks(SHA1_LEN).map(|x|
range_to_array(&x[0..20]))`.  A final chunk shorter than 20 bytes makes the
slice abort (`none`). -/
def piecesSingle (p : List Nat) : Option (List (List Nat)) :=
  let cs := chunksList 20 p
  if cs.all (fun x => 20 ≤ x.length) then some (cs.map (fun x => x.take 20))
  else none

/-- Rust `File` from `src/data.rs` (paths as byte-list segments). -/
structure FileR where
  length : Nat
  md5sum : Option (List Nat)
  path : List (List Nat)
  deriving DecidableEq, Repr

/-- Rust `Mode` from `src/data.rs`. -/
inductive ModeR where
  | single (name : List Nat) (length : Nat) (md5sum : Option (List Nat))
  | multi (dirName : List Nat) (files : List FileR) (md5sum : Option (List Nat))
  deriving DecidableEq, Repr

/-- Rust `Info` from `src/data.rs`; `value` is the 20-byte info-hash field. -/
structure InfoR where
  mode : ModeR
  pieceLength : Nat
  pieces : List (List Nat)
  privateFlag : Option Unit
  value : List Nat
  deriving DecidableEq, Repr

/-- Rust `Info::default()`. -/
def InfoR.default : InfoR :=
  { mode := .single [] 0 none
    pieceLength := 0
    pieces := []
    privateFlag := none
    value := List.replicate 20 0 }

/-- Rust `TorrentInfo` as used by `src/bencode.rs` (the announce lists for UDP
trackers require DNS resolution and are not modelled; only the HTTP list is
kept). -/
structure TorrentR where
  info : InfoR
  httpAnnounce : List (List Nat)
  created : Option Nat
  comment : List Nat
  author : Option (List Nat)
  deriving DecidableEq, Repr

/-- Rust `TorrentInfo::default()` restricted to the modelled fields. -/
def TorrentR.default : TorrentR :=
  { info := InfoR.default
    httpAnnounce := []
    created := none
    comment := []
    author := none }

/-- Rust `String::decode_bencode_object`: the value must be a byte string of
valid UTF-8.  The model accepts the ASCII subset (every byte below 128),
which is sound for the theorems below since they only assume success. -/
def asciiStr? : Bval → Option (List Nat)
  | .str s => if s.all (· < 128) then some s else none
  | _ => none

/-- Rust `u64::decode_bencode_object`: an integer token in `[0, 2^64)`. -/
def u64? : Bval → Option Nat
  | .int n => if 0 ≤ n ∧ n < (2 : Int) ^ 64 then some n.toNat else none
  | _ => none

/-- Dictionary key "info". -/
def keyInfo : List Nat := [105, 110, 102, 111]

/-- Dictionary key "announce". -/
def keyAnnounce : List Nat := [97, 110, 110, 111, 117, 110, 99, 101]

/-- Dictionary key "announce-list". -/
def keyAnnounceList : List Nat :=
  [97, 110, 110, 111, 117, 110, 99, 101, 45, 108, 105, 115, 116]

/-- Dictionary key "creation date". -/
def keyCreationDate : List Nat :=
  [99, 114, 101, 97, 116, 105, 111, 110, 32, 100, 97, 116, 101]

/-- Dictionary key "comment". -/
def keyComment : List Nat := [99, 111, 109, 109, 101, 110, 116]

/-- Dictionary key "created by". -/
def keyCreatedBy : List Nat := [99, 114, 101, 97, 116, 101, 100, 32, 98, 121]

/-- Dictionary key "piece length". -/
def keyPieceLength : List Nat :=
  [112, 105, 101, 99, 101, 32, 108, 101, 110, 103, 116, 104]

/-- Dictionary key "pieces". -/
def keyPieces : List Nat := [112, 105, 101, 99, 101, 115]

/-- Dictionary key "nodes". -/
def keyNodes : List Nat := [110, 111, 100, 101, 115]

/-- Dictionary key "private". -/
def keyPrivate : List Nat := [112, 114, 105, 118, 97, 116, 101]

/-- Dictionary key "name". -/
def keyName : List Nat := [110, 97, 109, 101]

/-- Dictionary key "files". -/
def keyFiles : List Nat := [102, 105, 108, 101, 115]

/-- Dictionary key "length". -/
def keyLength : List Nat := [108, 101, 110, 103, 116, 104]

/-- Dictionary key "md5sum". -/
def keyMd5sum : List Nat := [109, 100, 53, 115, 117, 109]

/-- Dictionary key "path". -/
def keyPath : List Nat := [112, 97, 116, 104]

/-- String prefix "http". -/
def strHttp : List Nat := [104, 116, 116, 112]

/-- String prefix "udp". -/
def strUdp : List Nat := [117, 100, 112]

/-- One pair of a `files` entry dictionary: the source creates a fresh
`File::default()` inside the pair loop and pushes one `File` per pair, so
each pair yields a `File` with a single populated field. -/
def decodeFilePair (kv : List Nat × Bval) : Option FileR :=
  let f : FileR := { length := 0, md5sum := none, path := [] }
  if kv.1 = keyLength then
    match u64? kv.2 with
    | some n => some { f with length := n }
    | none => none
  else if kv.1 = keyMd5sum then
    match kv.2 with
    | .str s => some { f with md5sum := some s }
    | _ => none
  else if kv.1 = keyPath then
    match kv.2 with
    | .list xs =>
        match xs.mapM asciiStr? with
        | some ps => some { f with path := ps }
        | none => none
    | _ => none
  else some f

/-- The `files` arm of the `Multi` mode: a list of dictionaries, each pair
of each dictionary contributing one `File`. -/
def decodeFiles (v : Bval) : Option (List FileR) :=
  match v with
  | .list xs =>
      (xs.foldlM (fun acc fd =>
        match fd with
        | .dict ps =>
            match ps.mapM decodeFilePair with
            | some fs => some (acc ++ fs)
            | none => none
        | _ => none) ([] : List FileR))
  | _ => none

/-- One pair of the `Multi` arm of `impl FromBencode for Info`: the state
is the partial `Info` plus the `dir_name` and `files` accumulators. -/
def infoArmMulti (st : InfoR × List Nat × List FileR) (kv : List Nat × Bval) :
    Option (InfoR × List Nat × List FileR) :=
  if kv.1 = keyPieceLength then
    match u64? kv.2 with
    | some n => some ({ st.1 with pieceLength := n }, st.2)
    | none => none
  else if kv.1 = keyPieces then
    match kv.2 with
    | .str s =>
        match piecesMulti s with
        | some ps => some ({ st.1 with pieces := ps }, st.2)
        | none => none
    | _ => none
  else if kv.1 = keyPrivate then some ({ st.1 with privateFlag := some () }, st.2)
  else if kv.1 = keyName then
    match asciiStr? kv.2 with
    | some s => some (st.1, s, st.2.2)
    | none => none
  else if kv.1 = keyFiles then
    match decodeFiles kv.2 with
    | some fs => some (st.1, st.2.1, st.2.2 ++ fs)
    | none => none
  else some st

/-- One pair of the `Single` arm of `impl FromBencode for Info`: the state
is the partial `Info` plus the `name`, `length` and `md5sum` accumulators. -/
def infoArmSingle (st : InfoR × List Nat × Nat × Option (List Nat))
    (kv : List Nat × Bval) : Option (InfoR × List Nat × Nat × Option (List Nat)) :=
  if kv.1 = keyPieceLength then
    match u64? kv.2 with
    | some n => some ({ st.1 with pieceLength := n }, st.2)
    | none => none
  else if kv.1 = keyPieces then
    match kv.2 with
    | .str s =>
        match piecesSingle s with
        | some ps => some ({ st.1 with pieces := ps }, st.2)
        | none => none
    | _ => none
  else if kv.1 = keyPrivate then some ({ st.1 with privateFlag := some () }, st.2)
  else if kv.1 = keyName then
    match asciiStr? kv.2 with
    | some s => some (st.1, s, st.2.2)
    | none => none
  else if kv.1 = keyLength then
    match u64? kv.2 with
    | some n => some (st.1, st.2.1, n, st.2.2.2)
    | none => none
  else if kv.1 = keyMd5sum then
    match kv.2 with
    | .str s => some (st.1, st.2.1, st.2.2.1, some s)
    | _ => none
  else some st

/-- Rust `impl FromBencode for Info` (`src/bencode.rs`): a first pass over the
dictionary decides `Multi` (a `files` key exists) versus `Single`, then the
raw bytes are decoded again with the mode-specific arms. -/
def decodeInfo (raw : List Nat) : Option InfoR :=
  match parseB raw with
  | some (.dict pairs, _) =>
      if pairs.any (fun kv => kv.1 = keyFiles) then
        match pairs.foldlM infoArmMulti (InfoR.default, [], []) with
        | some (i, dn, fs) => some { i with mode := .multi dn fs none }
        | none => none
      else
        match pairs.foldlM infoArmSingle (InfoR.default, [], 0, none) with
        | some (i, nm, len, md5) => some { i with mode := .single nm len md5 }
        | none => none
  | _ => none

/-- One string of an announce list: entries starting with "http" are kept,
entries starting with "udp" go through URL parsing and DNS resolution in
the source, which has no pure model (`none`); other entries are ignored. -/
def annEntry (md : TorrentR) (x : Bval) : Option TorrentR :=
  match asciiStr? x with
  | some s =>
      if s.take 3 = strUdp then none
      else if s.take 4 = strHttp then
        some { md with httpAnnounce := md.httpAnnounce ++ [s] }
      else some md
  | none => none

/-- One inner list of the `announce-list` value. -/
def annOuter (md : TorrentR) (o : Bval) : Option TorrentR :=
  match o with
  | .list inner => inner.foldlM annEntry md
  | _ => none

/-- One entry of the `nodes` list: a list whose first element decodes as a
string and whose second decodes as a `u64`; the results are discarded. -/
def nodeEntry (md : TorrentR) (x : Bval) : Option TorrentR :=
  match x with
  | .list inner =>
      match inner[0]? with
      | none => none
      | some f =>
          match asciiStr? f with
          | none => none
          | some _ =>
              match inner[1]? with
              | none => none
              | some s =>
                  match u64? s with
                  | none => none
                  | some _ => some md
  | _ => none

/-- One key/value pair of `impl FromBencode for TorrentInfo`
(`src/bencode.rs`).  `vpos` and `vlen` locate the raw bytes of the value
inside the whole input, so that the `info` arm can hash exactly the slice
that `dd.into_raw()` exposes.  SHA-1 itself is a parameter. -/
def tiArm (sha1 : List Nat → List Nat) (input : List Nat) (vpos vlen : Nat)
    (key : List Nat) (bv : Bval) (md : TorrentR) : Option TorrentR :=
  if key = keyInfo then
    match bv with
    | .dict _ =>
        match decodeInfo ((input.drop vpos).take vlen) with
        | some i =>
            some { md with info :=
              { i with value := sha1 ((input.drop vpos).take vlen) } }
        | none => none
    | _ => some md
  else if key = keyAnnounce then
    match asciiStr? bv with
    | some s =>
        if s.take 3 = strUdp then none
        else if s.take 4 = strHttp then
          some { md with httpAnnounce := md.httpAnnounce ++ [s] }
        else some md
    | none => none
  else if key = keyAnnounceList then
    match bv with
    | .list outer => outer.foldlM annOuter md
    | _ => none
  else if key = keyCreationDate then
    match u64? bv with
    | some n => some { md with created := some n }
    | none => none
  else if key = keyComment then
    match asciiStr? bv with
    | some s => some { md with comment := s }
    | none => none
  else if key = keyCreatedBy then
    match asciiStr? bv with
    | some s => some { md with author := some s }
    | none => none
  else if key = keyPieceLength then
    match u64? bv with
    | some n => some { md with info := { md.info with pieceLength := n } }
    | none => none
  else if key = keyPieces then
    match bv with
    | .str s =>
        match piecesMulti s with
        | some ps => some { md with info := { md.info with pieces := ps } }
        | none => none
    | _ => none
  else if key = keyNodes then
    match bv with
    | .list xs => xs.foldlM nodeEntry md
    | _ => none
  else
    match asciiStr? bv with
    | some _ => some md
    | none => none

/-- The pair loop of `impl FromBencode for TorrentInfo`, walking the
top-level dictionary by absolute position inside `input`. -/
def tiWalk (sha1 : List Nat → List Nat) (input : List Nat) :
    Nat → Nat → TorrentR → Option TorrentR
  | 0, _, _ => none
  | fuel + 1, pos, md =>
      match input.drop pos with
      | [] => none
      | ch :: _ =>
          if ch = 101 then some md
          else
            match parseB (input.drop pos) with
            | some (.str key, kc) =>
                match parseB (input.drop (pos + kc)) with
                | some (bv, vc) =>
                    match tiArm sha1 input (pos + kc) vc key bv md with
                    | some md2 => tiWalk sha1 input fuel (pos + kc + vc) md2
                    | none => none
                | none => none
            | _ => none

/-- Rust `impl FromBencode for TorrentInfo` (`src/bencode.rs`): the input must
be a dictionary; its pairs are folded by `tiWalk`. -/
def decodeTorrentInfo (sha1 : List Nat → List Nat) (input : List Nat) :
    Option TorrentR :=
  if input.head? = some 100 then tiWalk sha1 input input.length 1 TorrentR.default
  else none

/-- Specification-side scanner: the absolute position and byte length of
the value of the last top-level "info" key whose value is a dictionary,
walking the input exactly as `tiWalk` does but recording only the span. -/
def spanWalk (input : List Nat) :
    Nat → Nat → Option (Nat × Nat) → Option (Option (Nat × Nat))
  | 0, _, _ => none
  | fuel + 1, pos, cur =>
      match input.drop pos with
      | [] => none
      | ch :: _ =>
          if ch = 101 then some cur
          else
            match parseB (input.drop pos) with
            | some (.str key, kc) =>
                match parseB (input.drop (pos + kc)) with
                | some (bv, vc) =>
                    spanWalk input fuel (pos + kc + vc)
                      (if key = keyInfo ∧ bv.isDict then some (pos + kc, vc) else cur)
                | none => none
            | _ => none

/-- The span of the raw `info` dictionary inside a torrent file, written
from the specification sentence about hashing the exact original slice. -/
def infoSpan (input : List Nat) : Option (Nat × Nat) :=
  if input.head? = some 100 then
    match spanWalk input input.length 1 none with
    | some sp => sp
    | none => none
  else none

/-! ## Constants and claim-side sets used by the theorems -/

/-- The message kinds for which serialize-then-parse restores the message,
with the field bounds of the wire representation (`u32` indices, `u16`
port).  `bitfield` and `piece` are excluded: their parse arms rebuild the
payload differently (see the counterexample below). -/
def c1Set : Message → Prop
  | .choke | .unchoke | .interested | .uninterested => True
  | .havePiece x => x < 2 ^ 32
  | .request i b l => i < 2 ^ 32 ∧ b < 2 ^ 32 ∧ l < 2 ^ 32
  | .cancel i b l => i < 2 ^ 32 ∧ b < 2 ^ 32 ∧ l < 2 ^ 32
  | .port p => p < 2 ^ 16
  | _ => False

/-- A sample announce request: event `started`, socket port 6881. -/
def c6req : AnnounceReq :=
  { cid := 0x41727101980
    action := 1
    tid := 7
    hash := List.replicate 20 0
    peerId := List.replicate 20 0
    downloaded := 0
    left := 0
    uploaded := 0
    event := .started
    socketPort := 6881
    key := 0
    numWant := -1
    extensions := 0 }

/-- The info-hash of the torrent being served in the C8 scenario. -/
def c8TorrentHash : List Nat := List.replicate 20 1

/-- A received stream: a well-formed handshake whose info-hash is NOT
`c8TorrentHash`, followed by one `choke` frame. -/
def c8Stream : List Nat :=
  ([19] ++ pstrBytes ++ List.replicate 8 0 ++ List.replicate 20 2 ++
    List.replicate 20 3) ++ [0, 0, 0, 1, 0]

/-- The query string of the magnet URI
`magnet:?xt=urn:btih:0123456789abcdef0123456789abcdef01234567&dn=demo&tr=udp://tracker.example:6969`
as bytes. -/
def c9Query : List Nat :=
  [120, 116, 61, 117, 114, 110, 58, 98, 116, 105, 104, 58,
   48, 49, 50, 51, 52, 53, 54, 55, 56, 57, 97, 98, 99, 100, 101, 102,
   48, 49, 50, 51, 52, 53, 54, 55, 56, 57, 97, 98, 99, 100, 101, 102,
   48, 49, 50, 51, 52, 53, 54, 55,
   38, 100, 110, 61, 100, 101, 109, 111,
   38, 116, 114, 61, 117, 100, 112, 58, 47, 47, 116, 114, 97, 99, 107,
   101, 114, 46, 101, 120, 97, 109, 112, 108, 101, 58, 54, 57, 54, 57]

/-- The 20 hash bytes `01 23 45 67 89 ab cd ef 01 23 45 67 89 ab cd ef 01
23 45 67`. -/
def c9Hash : List Nat :=
  [0x01, 0x23, 0x45, 0x67, 0x89, 0xab, 0xcd, 0xef, 0x01, 0x23,
   0x45, 0x67, 0x89, 0xab, 0xcd, 0xef, 0x01, 0x23, 0x45, 0x67]

/-- Bytes of "demo". -/
def c9Name : List Nat := [100, 101, 109, 111]

/-- Bytes of "udp://tracker.example:6969". -/
def c9Tracker : List Nat :=
  [117, 100, 112, 58, 47, 47, 116, 114, 97, 99, 107, 101, 114, 46,
   101, 120, 97, 109, 112, 108, 101, 58, 54, 57, 54, 57]

/-- A stand-in hash function for the C2 witness (the theorem quantifies
over the hash function, so any concrete choice exercises it). -/
def cHashFn (l : List Nat) : List Nat := List.replicate 20 (l.length % 256)

/-- A concrete single-file info dictionary:
`d6:lengthi1e4:name1:a12:piece lengthi16384e6:pieces20:AA...Ae`. -/
def cInfoDict : List Nat :=
  [100, 54, 58, 108, 101, 110, 103, 116, 104, 105, 49, 101, 52, 58, 110,
   97, 109, 101, 49, 58, 97, 49, 50, 58, 112, 105, 101, 99, 101, 32, 108,
   101, 110, 103, 116, 104, 105, 49, 54, 51, 56, 52, 101, 54, 58, 112,
   105, 101, 99, 101, 115, 50, 48, 58, 65, 65, 65, 65, 65, 65, 65, 65,
   65, 65, 65, 65, 65, 65, 65, 65, 65, 65, 65, 65, 101]

/-- A concrete torrent file: `d4:info` ++ `cInfoDict` ++ `e`; the info
value occupies bytes 7 through 81 (75 bytes). -/
def cTorrentFile : List Nat :=
  [100, 52, 58, 105, 110, 102, 111] ++ cInfoDict ++ [101]

/-- The decoded form of `cTorrentFile` under `cHashFn`. -/
def cDecoded : TorrentR :=
  (decodeTorrentInfo cHashFn cTorrentFile).getD TorrentR.default

/-! ## Helper lemmas -/

theorem length_natToBe (w n : Nat) : (natToBe w n).length = w := by
  induction w generalizing n with
  | zero => simp [natToBe]
  | succ w ih => simp [natToBe, ih]

theorem beToNat_append (l : List Nat) (b : Nat) :
    beToNat (l ++ [b]) = beToNat l * 256 + b := by
  simp [beToNat, List.foldl_append]

theorem beToNat_natToBe (w n : Nat) : beToNat (natToBe w n) = n % 256 ^ w := by
  induction w generalizing n with
  | zero => simp [natToBe, beToNat, Nat.mod_one]
  | succ w ih =>
      rw [natToBe, beToNat_append, ih]
      rw [← Nat.mod_mul_right_div_self, Nat.pow_succ]
      rw [show 256 * 256 ^ w = 256 ^ w * 256 from Nat.mul_comm _ _]
      rw [show n % 256 = n % (256 ^ w * 256) % 256 from
        (Nat.mod_mod_of_dvd n (Dvd.intro_left _ rfl)).symm]
      have := Nat.div_add_mod (n % (256 ^ w * 256)) 256
      omega

theorem take_be_append (w n : Nat) (r : List Nat) :
    ((natToBe w n) ++ r).take w = natToBe w n :=
  List.take_left' (length_natToBe w n)

theorem drop_be_append (w n : Nat) (r : List Nat) :
    ((natToBe w n) ++ r).drop w = r :=
  List.drop_left' (length_natToBe w n)

theorem take_natToBe (w n : Nat) : (natToBe w n).take w = natToBe w n :=
  List.take_of_length_le (by simp [length_natToBe])

/-! ## Claim theorems -/

/-- Claim C1, counterexample: serializing `Piece{index:0, begin:0,
block:[]}` and parsing the bytes back yields a `piece` whose block is the
whole 9-byte frame payload (message id, index and begin bytes included),
not the original empty block, so `parse(serialize(m)) == m` fails on the
full message set. -/
theorem c1_piece_counterexample :
    (Message.piece 0 0 []).toRequest = some [0, 0, 0, 9, 7, 0, 0, 0, 0, 0, 0, 0, 0] ∧
    Message.parse [0, 0, 0, 9, 7, 0, 0, 0, 0, 0, 0, 0, 0] =
      .ok (.piece 0 0 [7, 0, 0, 0, 0, 0, 0, 0, 0]) 13 ∧
    Message.piece 0 0 [7, 0, 0, 0, 0, 0, 0, 0, 0] ≠ Message.piece 0 0 [] := by
  refine ⟨by decide, by decide, by decide⟩

/-- Claim C1, amended: serialize-then-parse restores the message for the
choke, unchoke, interested, not-interested, have, request, cancel and port
messages (with their fields within the wire-integer ranges), consuming the
whole frame; the bitfield and piece messages do not round-trip. -/
theorem c1_roundtrip_subset (m : Message) (bs : List Nat)
    (hm : c1Set m) (hb : m.toRequest = some bs) :
    Message.parse bs = .ok m bs.length := by
  cases m with
  | handshake hs => exact hm.elim
  | bitfield v => exact hm.elim
  | piece i b blk => exact hm.elim
  | extended => exact hm.elim
  | choke =>
      obtain rfl := (Option.some.inj hb).symm
      decide
  | unchoke =>
      obtain rfl := (Option.some.inj hb).symm
      decide
  | interested =>
      obtain rfl := (Option.some.inj hb).symm
      decide
  | uninterested =>
      obtain rfl := (Option.some.inj hb).symm
      decide
  | havePiece x =>
      obtain rfl := (Option.some.inj hb).symm
      have hx : x < 2 ^ 32 := hm
      have ht := List.take_length (natToBe 4 x)
      rw [length_natToBe] at ht
      have h5 : beToNat [0, 0, 0, 5] = 5 := by decide
      simp [Message.parse, List.length_append, length_natToBe, ht, h5,
        beToNat_natToBe]
      omega
  | request i b l =>
      obtain rfl := (Option.some.inj hb).symm
      obtain ⟨hi, hcb, hl⟩ := hm
      have h13 : beToNat [0, 0, 0, 13] = 13 := by decide
      have hTot : (natToBe 4 i ++ (natToBe 4 b ++ natToBe 4 l)).take 12 =
          natToBe 4 i ++ (natToBe 4 b ++ natToBe 4 l) := by
        apply List.take_of_length_le; simp [length_natToBe]
      have hD8 : (natToBe 4 i ++ (natToBe 4 b ++ natToBe 4 l)).drop 8 =
          natToBe 4 l := by
        rw [show (8 : Nat) = 4 + 4 from rfl, ← List.drop_drop, drop_be_append,
          drop_be_append]
      simp [Message.parse, List.length_append, length_natToBe, h13,
        beToNat_natToBe, take_be_append, drop_be_append, hTot, hD8, take_natToBe]
      omega
  | cancel i b l =>
      obtain rfl := (Option.some.inj hb).symm
      obtain ⟨hi, hcb, hl⟩ := hm
      have h13 : beToNat [0, 0, 0, 13] = 13 := by decide
      have hTot : (natToBe 4 i ++ (natToBe 4 b ++ natToBe 4 l)).take 12 =
          natToBe 4 i ++ (natToBe 4 b ++ natToBe 4 l) := by
        apply List.take_of_length_le; simp [length_natToBe]
      have hD8 : (natToBe 4 i ++ (natToBe 4 b ++ natToBe 4 l)).drop 8 =
          natToBe 4 l := by
        rw [show (8 : Nat) = 4 + 4 from rfl, ← List.drop_drop, drop_be_append,
          drop_be_append]
      simp [Message.parse, List.length_append, length_natToBe, h13,
        beToNat_natToBe, take_be_append, drop_be_append, hTot, hD8, take_natToBe]
      omega
  | port p =>
      obtain rfl := (Option.some.inj hb).symm
      have hp : p < 2 ^ 16 := hm
      have h3 : beToNat [0, 0, 0, 3] = 3 := by decide
      simp [Message.parse, List.length_append, length_natToBe, h3,
        beToNat_natToBe, take_be_append, drop_be_append, take_natToBe]
      omega

/-- Witness for C1: the have message with index 7 round-trips. -/
theorem c1_roundtrip_subset_witness :
    Message.parse [0, 0, 0, 5, 4, 0, 0, 0, 7] = .ok (.havePiece 7) 9 := by
  have h := c1_roundtrip_subset (.havePiece 7) [0, 0, 0, 5, 4, 0, 0, 0, 7]
    (by show (7 : Nat) < 2 ^ 32; decide) (by decide)
  simpa using h

/-- Claim C3: the parser is not total. A frame with length prefix 0 (a
keep-alive) makes `Message::parse` index `rem[0]` out of bounds, and a
frame whose message id (here 10) is outside the defined table hits the
explicit abort arm; both end the process instead of producing a protocol
error for the connection. -/
theorem c3_parse_aborts :
    Message.parse [0, 0, 0, 0] = .panic ∧
    Message.parse [0, 0, 0, 1, 10] = .panic ∧
    Message.parse [0, 0, 0, 1] = .incomplete := by
  refine ⟨by decide, by decide, by decide⟩

/-- Claim C5: processing `Have(8)` on a fresh 16-piece connection state
leaves the state completely unchanged (the handler ORs byte `8 / 8 = 1`
with the value `8 % 8 = 0` instead of setting a bit), so bit 8 of the
remote bitfield is not set; and processing `Have(1)` ORs byte 0 with the
value 1 rather than with a mask derived from bit position 1. -/
theorem c5_have_leaves_bit_clear :
    Connection.handle ⟨PState.new 16, none⟩ (.havePiece 8) =
      some ⟨PState.new 16, none⟩ ∧
    Connection.handle ⟨PState.new 16, none⟩ (.havePiece 1) =
      some ⟨{ PState.new 16 with remoteBitfield := [1, 0, 0] }, none⟩ := by
  refine ⟨by decide, by decide⟩

/-- Claim C7: a 40-byte `pieces` string (two 20-byte hashes) decoded
through the `TorrentInfo` / `Multi` chunking aborts (chunk size
`40 / 20 = 2` is smaller than the 21-byte slice taken from each chunk),
while the `Single` arm of the very same file splits it into the two
correct 20-byte hashes. -/
theorem c7_pieces_chunking_bug :
    piecesMulti (List.replicate 40 1) = none ∧
    piecesSingle (List.replicate 40 1) =
      some [List.replicate 20 1, List.replicate 20 1] := by
  refine ⟨by decide, by decide⟩

/-- Claim C8: a stream consisting of a complete handshake whose info-hash
(all `0x02` bytes) differs from the torrent hash (all `0x01` bytes),
followed by a `choke` frame, is fully processed by `Connection::listen`:
the `choke` message is parsed and forwarded.  The listener never receives
or compares the torrent hash, so a mismatch cannot drop the connection. -/
theorem c8_mismatch_forwarded :
    Connection.listen c8Stream =
      some ({ pstr := none
              reserved := List.replicate 8 0
              hash := List.replicate 20 2
              peerId := List.replicate 20 3
              payload := some [] }, [Message.choke]) ∧
    List.replicate 20 2 ≠ c8TorrentHash := by
  refine ⟨by decide, by decide⟩

/-- Claim C4, counterexample: in the handshake built for the all-zero
info-hash, the reserved byte at offset 25 (reserved byte 5) does not have
the extension-protocol bit `0x10` set — the constructor masks it with a
bitwise AND, leaving the byte zero. -/
theorem c4_extension_bit_counterexample :
    ((Handshake.new (List.replicate 20 48) (List.replicate 20 0)).toRequest.getD
        []).getD 25 0 &&& 16 = 0 ∧
    ¬ ((Handshake.new (List.replicate 20 48) (List.replicate 20 0)).toRequest.getD
        []).getD 25 0 &&& 16 = 16 := by
  refine ⟨by decide, by decide⟩

/-- Claim C6, counterexample: for an announce request with event `started`
(wire value 2) and socket port 6881, the serialized bytes carry `0 0 0 0`
in the event field and the constant 1317 (`05 25`) in the final two bytes,
so neither the event value nor the request port reaches the wire. -/
theorem c6_hardcoded_counterexample :
    ((AnnounceReq.toRequest c6req).drop 80).take 4 ≠
      intToBe 4 (TransferEvent.val c6req.event) ∧
    (AnnounceReq.toRequest c6req).drop 96 ≠ natToBe 2 c6req.socketPort := by
  refine ⟨by decide, by decide⟩

/-- Claim C9: parsing the magnet URI query
`xt=urn:btih:0123456789abcdef0123456789abcdef01234567&dn=demo&tr=udp://tracker.example:6969`
yields the 20-byte hash `01 23 45 67 ... 45 67`, the display name "demo"
and exactly the one UDP tracker URL; and every pair whose key is not
`xt`, `tr`, `dn` or `x.pe` leaves the result unchanged. -/
theorem c9_magnet_parse :
    magnetTryFrom c9Query =
      some { hash := c9Hash
             name := some c9Name
             trackers := some [c9Tracker]
             peers := none } ∧
    ∀ (info : MagnetInfo) (k v : List Nat),
      k ≠ strXt → k ≠ strTr → k ≠ strDn → k ≠ strXpe →
      magnetStep info (k, v) = some info := by
  refine ⟨by decide, ?_⟩
  intro info k v h1 h2 h3 h4
  simp [magnetStep, h1, h2, h3, h4]

/-- Witness for C9: the unknown key "foo" is ignored by the pair loop. -/
theorem c9_magnet_parse_witness :
    magnetStep MagnetInfo.default ([102, 111, 111], [98]) =
      some MagnetInfo.default :=
  c9_magnet_parse.2 MagnetInfo.default [102, 111, 111] [98]
    (by decide) (by decide) (by decide) (by decide)

/-- Claim C10: for a buffer built by `Buffer::new` with a positive number
of pieces, every call to `Buffer::write` aborts: an in-range index fails
the entry assertion `index >= self.pieces`, an out-of-range index fails the
lookup into the `pieces`-sized inner array, and no input ever reaches the
block-storing branch. -/
theorem c10_write_always_aborts (pieceLen pieces index begin_ : Nat)
    (block : List Nat) (_hp : 0 < pieces) :
    (index < pieces →
      Buffer.write (Buffer.new pieceLen pieces) index begin_ block =
        .assertIndexFail) ∧
    (pieces ≤ index →
      Buffer.write (Buffer.new pieceLen pieces) index begin_ block =
        .lookupFail) ∧
    ∀ b, Buffer.write (Buffer.new pieceLen pieces) index begin_ block ≠
      .ok b := by
  have h1 : index < pieces →
      Buffer.write (Buffer.new pieceLen pieces) index begin_ block =
        .assertIndexFail := by
    intro hlt
    simp [Buffer.write, Buffer.new, Nat.not_le.mpr hlt]
  have h2 : pieces ≤ index →
      Buffer.write (Buffer.new pieceLen pieces) index begin_ block =
        .lookupFail := by
    intro hge
    have hnone : (List.replicate pieces (List.replicate pieceLen 0))[index]? =
        none := List.getElem?_eq_none (by simp [hge])
    simp [Buffer.write, Buffer.new, hge, hnone]
  refine ⟨h1, h2, ?_⟩
  intro b
  rcases Nat.lt_or_ge index pieces with hlt | hge
  · rw [h1 hlt]; simp
  · rw [h2 hge]; simp

/-- Witness for C10: writing block `[5]` at piece 0 of a fresh two-piece
buffer fails the entry assertion. -/
theorem c10_write_always_aborts_witness :
    Buffer.write (Buffer.new 4 2) 0 0 [5] = .assertIndexFail :=
  (c10_write_always_aborts 4 2 0 0 [5] (by decide)).1 (by decide)

/-- Claim C4, amended: the outgoing handshake is 68 bytes laid out as
`pstrlen=19 | "BitTorrent protocol" | reserved[8] | hash[20] | peer_id[20]`,
where the reserved bytes are `[0,0,0,0,0,0,0,1]`: the DHT bit (mask 0x01
of byte 7) is set, but the extension-protocol bit (mask 0x10 of byte 5) is
clear, because the constructor ANDs byte 5 with 0x20 instead of ORing a
mask into it. -/
theorem c4_handshake_layout (peerId hash : List Nat)
    (hp : peerId.length = 20) (hh : hash.length = 20) :
    (Handshake.new peerId hash).reserved = [0, 0, 0, 0, 0, 0, 0, 1] ∧
    (Handshake.new peerId hash).toRequest =
      some ([19] ++ pstrBytes ++ [0, 0, 0, 0, 0, 0, 0, 1] ++ hash ++ peerId) ∧
    ((Handshake.new peerId hash).toRequest.getD []).length = 68 ∧
    ([0, 0, 0, 0, 0, 0, 0, 1].getD 7 0) &&& 0x01 = 1 ∧
    ([0, 0, 0, 0, 0, 0, 0, 1].getD 5 0) &&& 0x10 = 0 := by
  refine ⟨rfl, rfl, ?_, by decide, by decide⟩
  show ((19 :: (pstrBytes ++ ([0, 0, 0, 0, 0, 0, 0, 1] ++ (hash ++ peerId))))).length = 68
  simp [pstrBytes, hp, hh]

/-- Witness for C4: the layout at the all-zero hash with an all-zero peer
id has length 68. -/
theorem c4_handshake_layout_witness :
    (((Handshake.new (List.replicate 20 0) (List.replicate 20 0)).toRequest).getD
      []).length = 68 :=
  (c4_handshake_layout (List.replicate 20 0) (List.replicate 20 0)
    (by decide) (by decide)).2.2.1

/-- Claim C6, amended: serializing a UDP announce request yields exactly
98 big-endian unpadded bytes in the order cid(8), action(4), tid(4),
info-hash(20), peer-id(20), downloaded(8), left(8), uploaded(8), then four
zero bytes where the event value would go, four zero bytes for the ip,
key(4), num-want(4), and the constant 1317 as the final u16 instead of the
request port. -/
theorem c6_announce_layout (r : AnnounceReq)
    (hh : r.hash.length = 20) (hp : r.peerId.length = 20) :
    (AnnounceReq.toRequest r).length = 98 ∧
    (AnnounceReq.toRequest r).take 8 = intToBe 8 r.cid ∧
    ((AnnounceReq.toRequest r).drop 8).take 4 = intToBe 4 r.action ∧
    ((AnnounceReq.toRequest r).drop 12).take 4 = intToBe 4 r.tid ∧
    ((AnnounceReq.toRequest r).drop 16).take 20 = r.hash ∧
    ((AnnounceReq.toRequest r).drop 36).take 20 = r.peerId ∧
    ((AnnounceReq.toRequest r).drop 56).take 8 = intToBe 8 r.downloaded ∧
    ((AnnounceReq.toRequest r).drop 64).take 8 = intToBe 8 r.left ∧
    ((AnnounceReq.toRequest r).drop 72).take 8 = intToBe 8 r.uploaded ∧
    ((AnnounceReq.toRequest r).drop 80).take 4 = [0, 0, 0, 0] ∧
    ((AnnounceReq.toRequest r).drop 84).take 4 = [0, 0, 0, 0] ∧
    ((AnnounceReq.toRequest r).drop 88).take 4 = natToBe 4 r.key ∧
    ((AnnounceReq.toRequest r).drop 92).take 4 = intToBe 4 r.numWant ∧
    (AnnounceReq.toRequest r).drop 96 = [5, 37] := by
  have hlen8 : ∀ n : Int, (intToBe 8 n).length = 8 := fun n => length_natToBe _ _
  have hlen4 : ∀ n : Int, (intToBe 4 n).length = 4 := fun n => length_natToBe _ _
  have e : AnnounceReq.toRequest r =
      intToBe 8 r.cid ++ (intToBe 4 r.action ++ (intToBe 4 r.tid ++ (r.hash ++
      (r.peerId ++ (intToBe 8 r.downloaded ++ (intToBe 8 r.left ++
      (intToBe 8 r.uploaded ++ ([0, 0, 0, 0] ++ ([0, 0, 0, 0] ++
      (natToBe 4 r.key ++ (intToBe 4 r.numWant ++ natToBe 2 1317))))))))))) := by
    simp [AnnounceReq.toRequest]
  have d8 : (AnnounceReq.toRequest r).drop 8 =
      intToBe 4 r.action ++ (intToBe 4 r.tid ++ (r.hash ++ (r.peerId ++
      (intToBe 8 r.downloaded ++ (intToBe 8 r.left ++ (intToBe 8 r.uploaded ++
      ([0, 0, 0, 0] ++ ([0, 0, 0, 0] ++ (natToBe 4 r.key ++
      (intToBe 4 r.numWant ++ natToBe 2 1317)))))))))) := by
    rw [e]; exact List.drop_left' (hlen8 _)
  have d12 : (AnnounceReq.toRequest r).drop 12 =
      intToBe 4 r.tid ++ (r.hash ++ (r.peerId ++ (intToBe 8 r.downloaded ++
      (intToBe 8 r.left ++ (intToBe 8 r.uploaded ++ ([0, 0, 0, 0] ++
      ([0, 0, 0, 0] ++ (natToBe 4 r.key ++ (intToBe 4 r.numWant ++
      natToBe 2 1317))))))))) := by
    rw [show (12 : Nat) = 8 + 4 from rfl, ← List.drop_drop, d8]
    exact List.drop_left' (hlen4 _)
  have d16 : (AnnounceReq.toRequest r).drop 16 =
      r.hash ++ (r.peerId ++ (intToBe 8 r.downloaded ++ (intToBe 8 r.left ++
      (intToBe 8 r.uploaded ++ ([0, 0, 0, 0] ++ ([0, 0, 0, 0] ++
      (natToBe 4 r.key ++ (intToBe 4 r.numWant ++ natToBe 2 1317)))))))) := by
    rw [show (16 : Nat) = 12 + 4 from rfl, ← List.drop_drop, d12]
    exact List.drop_left' (hlen4 _)
  have d36 : (AnnounceReq.toRequest r).drop 36 =
      r.peerId ++ (intToBe 8 r.downloaded ++ (intToBe 8 r.left ++
      (intToBe 8 r.uploaded ++ ([0, 0, 0, 0] ++ ([0, 0, 0, 0] ++
      (natToBe 4 r.key ++ (intToBe 4 r.numWant ++ natToBe 2 1317))))))) := by
    rw [show (36 : Nat) = 16 + 20 from rfl, ← List.drop_drop, d16]
    exact List.drop_left' hh
  have d56 : (AnnounceReq.toRequest r).drop 56 =
      intToBe 8 r.downloaded ++ (intToBe 8 r.left ++ (intToBe 8 r.uploaded ++
      ([0, 0, 0, 0] ++ ([0, 0, 0, 0] ++ (natToBe 4 r.key ++
      (intToBe 4 r.numWant ++ natToBe 2 1317)))))) := by
    rw [show (56 : Nat) = 36 + 20 from rfl, ← List.drop_drop, d36]
    exact List.drop_left' hp
  have d64 : (AnnounceReq.toRequest r).drop 64 =
      intToBe 8 r.left ++ (intToBe 8 r.uploaded ++ ([0, 0, 0, 0] ++
      ([0, 0, 0, 0] ++ (natToBe 4 r.key ++ (intToBe 4 r.numWant ++
      natToBe 2 1317))))) := by
    rw [show (64 : Nat) = 56 + 8 from rfl, ← List.drop_drop, d56]
    exact List.drop_left' (hlen8 _)
  have d72 : (AnnounceReq.toRequest r).drop 72 =
      intToBe 8 r.uploaded ++ ([0, 0, 0, 0] ++ ([0, 0, 0, 0] ++
      (natToBe 4 r.key ++ (intToBe 4 r.numWant ++ natToBe 2 1317)))) := by
    rw [show (72 : Nat) = 64 + 8 from rfl, ← List.drop_drop, d64]
    exact List.drop_left' (hlen8 _)
  have d80 : (AnnounceReq.toRequest r).drop 80 =
      [0, 0, 0, 0] ++ ([0, 0, 0, 0] ++ (natToBe 4 r.key ++
      (intToBe 4 r.numWant ++ natToBe 2 1317))) := by
    rw [show (80 : Nat) = 72 + 8 from rfl, ← List.drop_drop, d72]
    exact List.drop_left' (hlen8 _)
  have d84 : (AnnounceReq.toRequest r).drop 84 =
      [0, 0, 0, 0] ++ (natToBe 4 r.key ++ (intToBe 4 r.numWant ++
      natToBe 2 1317)) := by
    rw [show (84 : Nat) = 80 + 4 from rfl, ← List.drop_drop, d80]
    rfl
  have d88 : (AnnounceReq.toRequest r).drop 88 =
      natToBe 4 r.key ++ (intToBe 4 r.numWant ++ natToBe 2 1317) := by
    rw [show (88 : Nat) = 84 + 4 from rfl, ← List.drop_drop, d84]
    rfl
  have d92 : (AnnounceReq.toRequest r).drop 92 =
      intToBe 4 r.numWant ++ natToBe 2 1317 := by
    rw [show (92 : Nat) = 88 + 4 from rfl, ← List.drop_drop, d88]
    exact List.drop_left' (length_natToBe _ _)
  have d96 : (AnnounceReq.toRequest r).drop 96 = natToBe 2 1317 := by
    rw [show (96 : Nat) = 92 + 4 from rfl, ← List.drop_drop, d92]
    exact List.drop_left' (hlen4 _)
  refine ⟨?_, ?_, ?_, ?_, ?_, ?_, ?_, ?_, ?_, ?_, ?_, ?_, ?_, ?_⟩
  · rw [e]; simp [List.length_append, length_natToBe, intToBe, hh, hp]
  · rw [e]; exact List.take_left' (hlen8 _)
  · rw [d8]; exact List.take_left' (hlen4 _)
  · rw [d12]; exact List.take_left' (hlen4 _)
  · rw [d16]; exact List.take_left' hh
  · rw [d36]; exact List.take_left' hp
  · rw [d56]; exact List.take_left' (hlen8 _)
  · rw [d64]; exact List.take_left' (hlen8 _)
  · rw [d72]; exact List.take_left' (hlen8 _)
  · rw [d80]; rfl
  · rw [d84]; rfl
  · rw [d88]; exact List.take_left' (length_natToBe _ _)
  · rw [d92]; exact List.take_left' (hlen4 _)
  · rw [d96]; rfl

/-- Witness for C6: the sample announce request serializes to 98 bytes. -/
theorem c6_announce_layout_witness :
    (AnnounceReq.toRequest c6req).length = 98 :=
  (c6_announce_layout c6req (by decide) (by decide)).1

theorem foldlM_info_eq {α : Type} (f : TorrentR → α → Option TorrentR)
    (hf : ∀ a x b, f a x = some b → b.info = a.info) :
    ∀ (xs : List α) (a b : TorrentR), List.foldlM f a xs = some b →
      b.info = a.info := by
  intro xs
  induction xs with
  | nil => intro a b h; simp [List.foldlM] at h; rw [h]
  | cons x xs ih =>
      intro a b h
      rw [List.foldlM_cons] at h
      rcases hfa : f a x with _ | a2
      · rw [hfa] at h; simp at h
      · rw [hfa] at h
        simp only [Option.some_bind, Option.bind_eq_bind] at h
        exact (ih a2 b h).trans (hf a x a2 hfa)

theorem annEntry_info (md : TorrentR) (x : Bval) (md2 : TorrentR)
    (h : annEntry md x = some md2) : md2.info = md.info := by
  unfold annEntry at h
  rcases hs : asciiStr? x with _ | s
  · rw [hs] at h; exact (Option.noConfusion h)
  · rw [hs] at h
    dsimp only at h
    by_cases h3 : s.take 3 = strUdp
    · rw [if_pos h3] at h; exact (Option.noConfusion h)
    · rw [if_neg h3] at h
      by_cases h4 : s.take 4 = strHttp
      · rw [if_pos h4] at h
        obtain rfl := Option.some.inj h
        rfl
      · rw [if_neg h4] at h
        obtain rfl := Option.some.inj h
        rfl

theorem annOuter_info (md : TorrentR) (o : Bval) (md2 : TorrentR)
    (h : annOuter md o = some md2) : md2.info = md.info := by
  unfold annOuter at h
  cases o with
  | list inner => exact foldlM_info_eq annEntry annEntry_info inner md md2 h
  | int v => exact (Option.noConfusion h)
  | str s => exact (Option.noConfusion h)
  | dict xs => exact (Option.noConfusion h)

theorem nodeEntry_info (md : TorrentR) (x : Bval) (md2 : TorrentR)
    (h : nodeEntry md x = some md2) : md2.info = md.info := by
  unfold nodeEntry at h
  cases x with
  | list inner =>
      dsimp only at h
      rcases h0 : inner[0]? with _ | f
      · rw [h0] at h; exact (Option.noConfusion h)
      · rw [h0] at h
        dsimp only at h
        rcases ha : asciiStr? f with _ | s
        · rw [ha] at h; exact (Option.noConfusion h)
        · rw [ha] at h
          dsimp only at h
          rcases h1 : inner[1]? with _ | s1
          · rw [h1] at h; exact (Option.noConfusion h)
          · rw [h1] at h
            dsimp only at h
            rcases hu : u64? s1 with _ | n
            · rw [hu] at h; exact (Option.noConfusion h)
            · rw [hu] at h
              obtain rfl := Option.some.inj h
              rfl
  | int v => exact (Option.noConfusion h)
  | str s => exact (Option.noConfusion h)
  | dict xs => exact (Option.noConfusion h)

theorem tiArm_value_of_cond (sha1 : List Nat → List Nat) (input : List Nat)
    (vpos vlen : Nat) (key : List Nat) (bv : Bval) (md md2 : TorrentR)
    (h : tiArm sha1 input vpos vlen key bv md = some md2)
    (hk : key = keyInfo) (hdict : bv.isDict = true) :
    md2.info.value = sha1 ((input.drop vpos).take vlen) := by
  unfold tiArm at h
  rw [if_pos hk] at h
  cases bv with
  | dict xs =>
      dsimp only at h
      rcases hdec : decodeInfo ((input.drop vpos).take vlen) with _ | i
      · rw [hdec] at h; exact (Option.noConfusion h)
      · rw [hdec] at h
        obtain rfl := Option.some.inj h
        rfl
  | int v => simp [Bval.isDict] at hdict
  | str s => simp [Bval.isDict] at hdict
  | list xs => simp [Bval.isDict] at hdict

theorem tiArm_value_of_not_cond (sha1 : List Nat → List Nat) (input : List Nat)
    (vpos vlen : Nat) (key : List Nat) (bv : Bval) (md md2 : TorrentR)
    (h : tiArm sha1 input vpos vlen key bv md = some md2)
    (hc : ¬ (key = keyInfo ∧ bv.isDict = true)) :
    md2.info.value = md.info.value := by
  unfold tiArm at h
  by_cases hk : key = keyInfo
  · rw [if_pos hk] at h
    cases bv with
    | dict xs => exact absurd ⟨hk, rfl⟩ hc
    | int v => dsimp only at h; obtain rfl := Option.some.inj h; rfl
    | str s => dsimp only at h; obtain rfl := Option.some.inj h; rfl
    | list xs => dsimp only at h; obtain rfl := Option.some.inj h; rfl
  · rw [if_neg hk] at h
    by_cases h2 : key = keyAnnounce
    · rw [if_pos h2] at h
      rcases ha : asciiStr? bv with _ | s
      · rw [ha] at h; exact (Option.noConfusion h)
      · rw [ha] at h
        dsimp only at h
        by_cases h3 : s.take 3 = strUdp
        · rw [if_pos h3] at h; exact (Option.noConfusion h)
        · rw [if_neg h3] at h
          by_cases h4 : s.take 4 = strHttp
          · rw [if_pos h4] at h; obtain rfl := Option.some.inj h; rfl
          · rw [if_neg h4] at h; obtain rfl := Option.some.inj h; rfl
    · rw [if_neg h2] at h
      by_cases h5 : key = keyAnnounceList
      · rw [if_pos h5] at h
        cases bv with
        | list outer =>
            dsimp only at h
            exact congrArg InfoR.value
              (foldlM_info_eq annOuter annOuter_info outer md md2 h)
        | int v => exact (Option.noConfusion h)
        | str s => exact (Option.noConfusion h)
        | dict xs => exact (Option.noConfusion h)
      · rw [if_neg h5] at h
        by_cases h6 : key = keyCreationDate
        · rw [if_pos h6] at h
          rcases hu : u64? bv with _ | n
          · rw [hu] at h; exact (Option.noConfusion h)
          · rw [hu] at h; dsimp only at h
            obtain rfl := Option.some.inj h; rfl
        · rw [if_neg h6] at h
          by_cases h7 : key = keyComment
          · rw [if_pos h7] at h
            rcases ha : asciiStr? bv with _ | s
            · rw [ha] at h; exact (Option.noConfusion h)
            · rw [ha] at h; dsimp only at h
              obtain rfl := Option.some.inj h; rfl
          · rw [if_neg h7] at h
            by_cases h8 : key = keyCreatedBy
            · rw [if_pos h8] at h
              rcases ha : asciiStr? bv with _ | s
              · rw [ha] at h; exact (Option.noConfusion h)
              · rw [ha] at h; dsimp only at h
                obtain rfl := Option.some.inj h; rfl
            · rw [if_neg h8] at h
              by_cases h9 : key = keyPieceLength
              · rw [if_pos h9] at h
                rcases hu : u64? bv with _ | n
                · rw [hu] at h; exact (Option.noConfusion h)
                · rw [hu] at h; dsimp only at h
                  obtain rfl := Option.some.inj h; rfl
              · rw [if_neg h9] at h
                by_cases h10 : key = keyPieces
                · rw [if_pos h10] at h
                  cases bv with
                  | str s =>
                      dsimp only at h
                      rcases hm : piecesMulti s with _ | ps
                      · rw [hm] at h; exact (Option.noConfusion h)
                      · rw [hm] at h; dsimp only at h
                        obtain rfl := Option.some.inj h; rfl
                  | int v => exact (Option.noConfusion h)
                  | list xs => exact (Option.noConfusion h)
                  | dict xs => exact (Option.noConfusion h)
                · rw [if_neg h10] at h
                  by_cases h11 : key = keyNodes
                  · rw [if_pos h11] at h
                    cases bv with
                    | list xs =>
                        dsimp only at h
                        exact congrArg InfoR.value
                          (foldlM_info_eq nodeEntry nodeEntry_info xs md md2 h)
                    | int v => exact (Option.noConfusion h)
                    | str s => exact (Option.noConfusion h)
                    | dict xs => exact (Option.noConfusion h)
                  · rw [if_neg h11] at h
                    rcases ha : asciiStr? bv with _ | s
                    · rw [ha] at h; exact (Option.noConfusion h)
                    · rw [ha] at h; dsimp only at h
                      obtain rfl := Option.some.inj h; rfl

theorem tiWalk_span (sha1 : List Nat → List Nat) (input : List Nat) :
    ∀ (fuel pos : Nat) (md : TorrentR) (cur : Option (Nat × Nat))
      (res : TorrentR) (sp : Option (Nat × Nat)),
      tiWalk sha1 input fuel pos md = some res →
      spanWalk input fuel pos cur = some sp →
      (∀ p c, cur = some (p, c) →
        md.info.value = sha1 ((input.drop p).take c)) →
      ∀ p c, sp = some (p, c) →
        res.info.value = sha1 ((input.drop p).take c) := by
  intro fuel
  induction fuel with
  | zero =>
      intro pos md cur res sp h1 _ _
      exact (Option.noConfusion h1)
  | succ fuel ih =>
      intro pos md cur res sp h1 h2 hinv
      rw [tiWalk] at h1
      rw [spanWalk] at h2
      rcases hd : input.drop pos with _ | ⟨ch, rest⟩
      · rw [hd] at h1
        exact (Option.noConfusion h1)
      · rw [hd] at h1 h2
        dsimp only at h1 h2
        by_cases he : ch = 101
        · rw [if_pos he] at h1 h2
          obtain rfl := Option.some.inj h1
          obtain rfl := Option.some.inj h2
          exact hinv
        · rw [if_neg he] at h1 h2
          rcases hp1 : parseB (ch :: rest) with _ | ⟨bv1, kc⟩
          · rw [hp1] at h1
            exact (Option.noConfusion h1)
          · rw [hp1] at h1 h2
            cases bv1 with
            | int v => exact (Option.noConfusion h1)
            | list xs => exact (Option.noConfusion h1)
            | dict xs => exact (Option.noConfusion h1)
            | str key =>
                dsimp only at h1 h2
                rcases hp2 : parseB (input.drop (pos + kc)) with _ | ⟨bv, vc⟩
                · rw [hp2] at h1
                  exact (Option.noConfusion h1)
                · rw [hp2] at h1 h2
                  dsimp only at h1 h2
                  rcases harm : tiArm sha1 input (pos + kc) vc key bv md
                      with _ | md2
                  · rw [harm] at h1
                    exact (Option.noConfusion h1)
                  · rw [harm] at h1
                    dsimp only at h1
                    refine ih (pos + kc + vc) md2 _ res sp h1 h2 ?_
                    intro p c hc
                    by_cases hcond : key = keyInfo ∧ bv.isDict = true
                    · rw [if_pos hcond] at hc
                      have hpc := Option.some.inj hc
                      have hp' : pos + kc = p := congrArg Prod.fst hpc
                      have hc' : vc = c := congrArg Prod.snd hpc
                      subst hp'
                      subst hc'
                      exact tiArm_value_of_cond sha1 input (pos + kc) vc key bv
                        md md2 harm hcond.1 hcond.2
                    · rw [if_neg hcond] at hc
                      rw [tiArm_value_of_not_cond sha1 input (pos + kc) vc key
                        bv md md2 harm hcond]
                      exact hinv p c hc

/-- Claim C2: whenever decoding a torrent file succeeds and its top-level
dictionary contains an `info` dictionary (located by `infoSpan`), the
info-hash stored in the decoded result is the SHA-1 function applied to
exactly the original contiguous byte slice of that `info` dictionary value
(no re-encoding), for every choice of the hash function. -/
theorem c2_infohash_raw_slice (sha1 : List Nat → List Nat) (input : List Nat)
    (ti : TorrentR) (p c : Nat)
    (hdec : decodeTorrentInfo sha1 input = some ti)
    (hspan : infoSpan input = some (p, c)) :
    ti.info.value = sha1 ((input.drop p).take c) ∧
    input = input.take p ++ (input.drop p).take c ++ input.drop (p + c) := by
  constructor
  · unfold decodeTorrentInfo at hdec
    unfold infoSpan at hspan
    by_cases h100 : input.head? = some 100
    · rw [if_pos h100] at hdec hspan
      rcases hsw : spanWalk input input.length 1 none with _ | sp
      · rw [hsw] at hspan
        exact (Option.noConfusion hspan)
      · rw [hsw] at hspan
        dsimp only at hspan
        exact tiWalk_span sha1 input input.length 1 TorrentR.default none ti sp
          hdec hsw (fun p c hpc => Option.noConfusion hpc) p c hspan
    · rw [if_neg h100] at hdec
      exact (Option.noConfusion hdec)
  · have h1 := List.take_append_drop p input
    have h2 := List.take_append_drop c (input.drop p)
    have h3 := List.drop_drop c p input
    calc input = input.take p ++ input.drop p := h1.symm
      _ = input.take p ++ ((input.drop p).take c ++ (input.drop p).drop c) := by
          rw [h2]
      _ = input.take p ++ (input.drop p).take c ++ (input.drop p).drop c := by
          rw [List.append_assoc]
      _ = input.take p ++ (input.drop p).take c ++ input.drop (p + c) := by
          rw [h3]

/-- Witness for C2: the concrete torrent file decodes, its info value
occupies bytes 7 through 81, and the stored hash equals the sample hash
function applied to that 75-byte slice. -/
theorem c2_infohash_raw_slice_witness :
    cDecoded.info.value = cHashFn ((cTorrentFile.drop 7).take 75) :=
  (c2_infohash_raw_slice cHashFn cTorrentFile cDecoded 7 75
    (by decide) (by decide)).1

end Everlasting
